import Mathlib

/-!
Verification of the YARS-PG / YARS-PG-RDF serializer of the `knows`
repository (`knows/output_format.py`), shallowly embedded in Lean.

Attribute values are the closed variant string | integer | boolean with
Python's total string coercion `str`.  Attribute maps are insertion-ordered
association lists; the graph itself guarantees key uniqueness, which the
serializer never relies on.  Python's `'\n'.join` and `', '.join` are
embedded as `pyJoin`, and the line-splitting operation `split("\n")` used by
the specification's observable properties is embedded as `splitNl`.
-/

namespace Knows

/-- Attribute values: the closed variant of string-coercible values
(string, number, boolean) carried by nodes and edges. -/
inductive Value where
  | str (s : String)
  | int (n : Int)
  | bool (b : Bool)
deriving DecidableEq, Repr

/-- Python's `str` coercion, total on the closed variant. -/
def pyStr : Value → String
  | Value.str s => s
  | Value.int n => toString n
  | Value.bool b => if b then "True" else "False"

/-- Insertion-ordered attribute mapping from string keys to values. -/
abbrev AttrMap := List (String × Value)

/-- Python's `dict.get k` on an insertion-ordered mapping:
the first entry whose key equals `k`, if any. -/
def attrs_get (attrs : AttrMap) (k : String) : Option Value :=
  (List.find? (fun p => p.1 == k) attrs).map (fun p => p.2)

/-- The label selected for a node or edge:
`attributes.get('label', 'label')`, coerced to string where interpolated. -/
def getLabel (attrs : AttrMap) : String :=
  match attrs_get attrs "label" with
  | some v => pyStr v
  | none => "label"

/-- Python's `sep.join(list)`. -/
def pyJoin (sep : String) : List String → String
  | [] => ""
  | [x] => x
  | x :: y :: ys => x ++ sep ++ pyJoin sep (y :: ys)

/-- One emitted property entry: `"<key>": "<value>"` with the value
string-coerced and no escaping. -/
def propEntry (p : String × Value) : String :=
  "\"" ++ p.1 ++ "\": \"" ++ pyStr p.2 ++ "\""

/-- The property-list comprehension
`', '.join([f'"k": "v"' for k, v in attributes.items() if k != 'label'])`:
iterate in insertion order, skip the `label` key, emit quoted entries,
join with comma-space. -/
def prop_list (attrs : AttrMap) : String :=
  pyJoin ", " (List.map propEntry (List.filter (fun p => p.1 != "label") attrs))

/-- `OutputFormat._format_node_yarspg`: a node term
`(<id> <left-brace>"<label>"<right-brace>[<props>])`. -/
def format_node_yarspg (node : Value × AttrMap) : String :=
  let node_id := node.1
  let attributes := node.2
  let label := getLabel attributes
  "(" ++ pyStr node_id ++ " \x7b\"" ++ label ++ "\"\x7d[" ++ prop_list attributes ++ "])"

/-- `OutputFormat._format_edge_yarspg`: an edge term
`(<src>)-(<left-brace>"<label>"<right-brace>[<props>])->(<dst>)`. -/
def format_edge_yarspg (edge : Value × Value × AttrMap) : String :=
  let u := edge.1
  let v := edge.2.1
  let attributes := edge.2.2
  let label := getLabel attributes
  "(" ++ pyStr u ++ ")-(\x7b\"" ++ label ++ "\"\x7d[" ++ prop_list attributes ++ "])->(" ++ pyStr v ++ ")"

/-- The fixed override attributes substituted for every node in RDF mode. -/
def rdfNodeAttrs : AttrMap :=
  [("label", Value.str "IRI"), ("@value", Value.str "https://w3id.org/MON/person.owl#Person")]

/-- The fixed override attributes substituted for every edge in RDF mode. -/
def rdfEdgeAttrs : AttrMap :=
  [("label", Value.str "IRI"), ("@value", Value.str "https://w3id.org/MON/person.owl#friendOf")]

/-- `OutputFormat._format_node_yarspg_rdf`: uses only `node[0]` and the
fixed override attribute map. -/
def format_node_yarspg_rdf (node : Value × AttrMap) : String :=
  let node_id := node.1
  let attributes := rdfNodeAttrs
  let label := getLabel attributes
  "(" ++ pyStr node_id ++ " \x7b\"" ++ label ++ "\"\x7d[" ++ prop_list attributes ++ "])"

/-- `OutputFormat._format_edge_yarspg_rdf`: uses only the two endpoints and
the fixed override attribute map. -/
def format_edge_yarspg_rdf (edge : Value × Value × AttrMap) : String :=
  let u := edge.1
  let v := edge.2.1
  let attributes := rdfEdgeAttrs
  let label := getLabel attributes
  "(" ++ pyStr u ++ ")-(\x7b\"" ++ label ++ "\"\x7d[" ++ prop_list attributes ++ "])->(" ++ pyStr v ++ ")"

/-- The property graph read by the serializer: nodes with attributes in
insertion order and edges with attributes in insertion order. -/
structure Graph where
  nodes : List (Value × AttrMap)
  edges : List (Value × Value × AttrMap)
deriving DecidableEq

/-- `OutputFormat._to_yarspg`: node terms then edge terms, newline-joined. -/
def to_yarspg (g : Graph) : String :=
  let nodes_output := List.map format_node_yarspg g.nodes
  let edges_output := List.map format_edge_yarspg g.edges
  pyJoin "\n" (nodes_output ++ edges_output)

/-- `OutputFormat._to_yarspg_rdf`: a `# Nodes` section then a `# Edges`
section, concatenated exactly as in the source. -/
def to_yarspg_rdf (g : Graph) : String :=
  let nodes_section := "# Nodes\n"
  let edges_section := "\n# Edges\n"
  let nodes_output := List.map format_node_yarspg_rdf g.nodes
  let edges_output := List.map format_edge_yarspg_rdf g.edges
  let nodes_output_str := pyJoin "\n" nodes_output
  let edges_output_str := pyJoin "\n" edges_output
  nodes_section ++ nodes_output_str ++ edges_section ++ edges_output_str

/-- The dispatch table of `OutputFormat.to_format`, in source order.  The
renderers for the standard formats delegate to external collaborators
(graph codec library, drawer), abstracted as the function `other`. -/
def format_methods (other : String → Graph → String) (g : Graph) : List (String × String) :=
  [("graphml", other "graphml" g), ("yarspg", to_yarspg g), ("yarspg-rdf", to_yarspg_rdf g),
   ("gexf", other "gexf" g), ("gml", other "gml" g), ("svg", other "svg" g),
   ("adjacency_list", other "adjacency_list" g),
   ("multiline_adjacency_list", other "multiline_adjacency_list" g),
   ("edge_list", other "edge_list" g), ("json", other "json" g)]

/-- `OutputFormat.to_format`: dictionary lookup of the format name; an
unknown name is a `KeyError` propagated to the caller. -/
def to_format (other : String → Graph → String) (g : Graph) (format_type : String) :
    Except String String :=
  match List.find? (fun p => p.1 == format_type) (format_methods other g) with
  | some p => Except.ok p.2
  | none => Except.error ("KeyError: " ++ format_type)

/-- The supported format names. -/
def supportedFormats : List String :=
  ["graphml", "yarspg", "yarspg-rdf", "gexf", "gml", "svg", "adjacency_list",
   "multiline_adjacency_list", "edge_list", "json"]

/-- Spec-side rendition of the PropertyList Formatter's emitted entries:
iterate the mapping in insertion order, skip every entry whose key equals
the excluded key `label`, and emit each remaining entry as a quoted
key-value pair. -/
def emitted_entries_spec : AttrMap → List String
  | [] => []
  | (k, v) :: rest =>
    if k = "label" then emitted_entries_spec rest
    else propEntry (k, v) :: emitted_entries_spec rest

/-- Spec-side rendition of the PropertyList Formatter: the emitted entries
joined with comma-space, the empty string when none remain. -/
def prop_list_spec (attrs : AttrMap) : String :=
  pyJoin ", " (emitted_entries_spec attrs)

/-- Splitting a character list at every newline character, Python
`split("\n")` semantics: always at least one (possibly empty) piece. -/
def splitNlChars : List Char → List (List Char)
  | [] => [[]]
  | c :: cs =>
    if c = '\n' then [] :: splitNlChars cs
    else
      match splitNlChars cs with
      | [] => [[c]]
      | r :: rs => (c :: r) :: rs

/-- Python's `s.split("\n")`: the list of lines of `s`. -/
def splitNl (s : String) : List String :=
  List.map String.mk (splitNlChars s.data)

/-- The lines occupied by the node section of a yarspg-rdf document: the
node terms, or the single empty line left by an empty node list. -/
def nodeLines (g : Graph) : List String :=
  if g.nodes = [] then [""] else List.map format_node_yarspg_rdf g.nodes

/-- The lines occupied by the edge section of a yarspg-rdf document: the
edge terms, or the single empty line left by an empty edge list. -/
def edgeLines (g : Graph) : List String :=
  if g.edges = [] then [""] else List.map format_edge_yarspg_rdf g.edges

/-- The concrete scenario graph of the specification: node 1 with label
Person and name Alice, node 2 with no attributes, edge (1,2) labelled
knows, inserted in that order. -/
def scenarioGraph : Graph :=
  { nodes := [(Value.int 1, [("label", Value.str "Person"), ("name", Value.str "Alice")]),
              (Value.int 2, [])],
    edges := [(Value.int 1, Value.int 2, [("label", Value.str "knows")])] }

/-- Claim C1: on the concrete scenario graph, `toFormat "yarspg"` returns
exactly the three expected terms newline-joined, and `toFormat "yarspg-rdf"`
returns exactly the expected sectioned document. -/
theorem C1_concrete_scenario (other : String → Graph → String) :
    to_format other scenarioGraph "yarspg" =
      Except.ok "(1 \x7b\"Person\"\x7d[\"name\": \"Alice\"])\n(2 \x7b\"label\"\x7d[])\n(1)-(\x7b\"knows\"\x7d[])->(2)" ∧
    to_format other scenarioGraph "yarspg-rdf" =
      Except.ok ("# Nodes\n(1 \x7b\"IRI\"\x7d[\"@value\": \"https://w3id.org/MON/person.owl#Person\"])\n(2 \x7b\"IRI\"\x7d[\"@value\": \"https://w3id.org/MON/person.owl#Person\"])\n# Edges\n(1)-(\x7b\"IRI\"\x7d[\"@value\": \"https://w3id.org/MON/person.owl#friendOf\"])->(2)") := by
  exact ⟨rfl, rfl⟩

/-- Claim C1 witness: the scenario equalities at a concrete collaborator. -/
theorem C1_concrete_scenario_witness :
    to_format (fun _ _ => "") scenarioGraph "yarspg" =
      Except.ok "(1 \x7b\"Person\"\x7d[\"name\": \"Alice\"])\n(2 \x7b\"label\"\x7d[])\n(1)-(\x7b\"knows\"\x7d[])->(2)" ∧
    to_format (fun _ _ => "") scenarioGraph "yarspg-rdf" =
      Except.ok ("# Nodes\n(1 \x7b\"IRI\"\x7d[\"@value\": \"https://w3id.org/MON/person.owl#Person\"])\n(2 \x7b\"IRI\"\x7d[\"@value\": \"https://w3id.org/MON/person.owl#Person\"])\n# Edges\n(1)-(\x7b\"IRI\"\x7d[\"@value\": \"https://w3id.org/MON/person.owl#friendOf\"])->(2)") :=
  C1_concrete_scenario (fun _ _ => "")

/-- The spec-side emitted entries coincide with the source's comprehension
filter-then-map. -/
theorem emitted_entries_spec_eq (attrs : AttrMap) :
    emitted_entries_spec attrs =
      List.map propEntry (List.filter (fun p => p.1 != "label") attrs) := by
  induction attrs with
  | nil => rfl
  | cons p rest ih =>
    obtain ⟨k, v⟩ := p
    by_cases hk : k = "label"
    · simp [emitted_entries_spec, hk, ih]
    · simp [emitted_entries_spec, hk, ih]

/-- Claim C2: the rendered property list is exactly the spec's description —
insertion order, `label` entries skipped, quoted string-coerced entries
joined with comma-space; no surviving entry has key `label`; and the result
is empty whenever no entries survive the exclusion. -/
theorem C2_prop_list_refines_spec (attrs : AttrMap) :
    prop_list attrs = prop_list_spec attrs ∧
    (∀ p ∈ List.filter (fun p => p.1 != "label") attrs, p.1 ≠ "label") ∧
    (List.filter (fun p => p.1 != "label") attrs = [] → prop_list attrs = "") := by
  refine ⟨?_, ?_, ?_⟩
  · rw [prop_list, prop_list_spec, emitted_entries_spec_eq]
  · intro p hp
    have := List.of_mem_filter hp
    simpa using this
  · intro h
    rw [prop_list, h]
    rfl

/-- Claim C2 witness at a concrete attribute map. -/
theorem C2_prop_list_refines_spec_witness :
    prop_list [("label", Value.str "x"), ("a", Value.int 2)] =
      prop_list_spec [("label", Value.str "x"), ("a", Value.int 2)] ∧
    (∀ p ∈ List.filter (fun p => p.1 != "label")
        ([("label", Value.str "x"), ("a", Value.int 2)] : AttrMap), p.1 ≠ "label") ∧
    (List.filter (fun p => p.1 != "label")
        ([("label", Value.str "x"), ("a", Value.int 2)] : AttrMap) = [] →
      prop_list [("label", Value.str "x"), ("a", Value.int 2)] = "") :=
  C2_prop_list_refines_spec [("label", Value.str "x"), ("a", Value.int 2)]

/-- Claim C3: when the attribute map has no `label` key, the non-RDF node
and edge terms carry the literal string `label` in their label position,
with no error. -/
theorem C3_missing_label_defaults (u v : Value) (attrs : AttrMap)
    (h : ∀ p ∈ attrs, p.1 ≠ "label") :
    getLabel attrs = "label" ∧
    format_node_yarspg (u, attrs) =
      "(" ++ pyStr u ++ " \x7b\"" ++ "label" ++ "\"\x7d[" ++ prop_list attrs ++ "])" ∧
    format_edge_yarspg (u, v, attrs) =
      "(" ++ pyStr u ++ ")-(\x7b\"" ++ "label" ++ "\"\x7d[" ++ prop_list attrs ++ "])->(" ++
        pyStr v ++ ")" := by
  have hget : attrs_get attrs "label" = none := by
    rw [attrs_get, List.find?_eq_none.mpr]
    · rfl
    · intro p hp
      simpa using h p hp
  have hlabel : getLabel attrs = "label" := by
    rw [getLabel, hget]
  refine ⟨hlabel, ?_, ?_⟩
  · rw [format_node_yarspg]
    rw [show ((u, attrs).2 : AttrMap) = attrs from rfl, hlabel]
  · rw [format_edge_yarspg]
    rw [show ((u, v, attrs).2.2 : AttrMap) = attrs from rfl, hlabel]

/-- Claim C3 witness at a concrete node, edge and label-free attribute map. -/
theorem C3_missing_label_defaults_witness :
    (∀ p ∈ ([("name", Value.str "Bob")] : AttrMap), p.1 ≠ "label") ∧
    (getLabel [("name", Value.str "Bob")] = "label" ∧
      format_node_yarspg (Value.int 7, [("name", Value.str "Bob")]) =
        "(" ++ pyStr (Value.int 7) ++ " \x7b\"" ++ "label" ++ "\"\x7d[" ++
          prop_list [("name", Value.str "Bob")] ++ "])" ∧
      format_edge_yarspg (Value.int 7, Value.int 8, [("name", Value.str "Bob")]) =
        "(" ++ pyStr (Value.int 7) ++ ")-(\x7b\"" ++ "label" ++ "\"\x7d[" ++
          prop_list [("name", Value.str "Bob")] ++ "])->(" ++ pyStr (Value.int 8) ++ ")") :=
  ⟨by decide,
   C3_missing_label_defaults (Value.int 7) (Value.int 8) [("name", Value.str "Bob")] (by decide)⟩

/-- String concatenation concatenates the underlying character lists. -/
theorem strData_append (a b : String) : (a ++ b).data = a.data ++ b.data := by
  cases a
  cases b
  rfl

/-- RDF node terms depend only on the node identifier. -/
theorem map_rdf_node_topology (l1 l2 : List (Value × AttrMap))
    (h : List.map Prod.fst l1 = List.map Prod.fst l2) :
    List.map format_node_yarspg_rdf l1 = List.map format_node_yarspg_rdf l2 := by
  induction l1 generalizing l2 with
  | nil => cases l2 <;> simp_all
  | cons x xs ih =>
    cases l2 with
    | nil => simp at h
    | cons y ys =>
      simp only [List.map_cons, List.cons.injEq] at h ⊢
      exact ⟨by rw [format_node_yarspg_rdf, format_node_yarspg_rdf, h.1], ih ys h.2⟩

/-- RDF edge terms depend only on the two endpoint identifiers. -/
theorem map_rdf_edge_topology (l1 l2 : List (Value × Value × AttrMap))
    (h : List.map (fun e => (e.1, e.2.1)) l1 = List.map (fun e => (e.1, e.2.1)) l2) :
    List.map format_edge_yarspg_rdf l1 = List.map format_edge_yarspg_rdf l2 := by
  induction l1 generalizing l2 with
  | nil => cases l2 <;> simp_all
  | cons x xs ih =>
    cases l2 with
    | nil => simp at h
    | cons y ys =>
      simp only [List.map_cons, List.cons.injEq, Prod.mk.injEq] at h ⊢
      refine ⟨?_, ih ys h.2⟩
      rw [format_edge_yarspg_rdf, format_edge_yarspg_rdf, h.1.1, h.1.2]

/-- Claim C4: RDF-mode rendering replaces every attribute map with the fixed
IRI pair, so yarspg-rdf output is identical on any two graphs with the same
node identifiers and the same edge endpoint pairs, in the same order. -/
theorem C4_rdf_invariance (g1 g2 : Graph)
    (hn : List.map Prod.fst g1.nodes = List.map Prod.fst g2.nodes)
    (he : List.map (fun e => (e.1, e.2.1)) g1.edges =
          List.map (fun e => (e.1, e.2.1)) g2.edges) :
    (∀ (i : Value) (a b : AttrMap),
        format_node_yarspg_rdf (i, a) = format_node_yarspg_rdf (i, b)) ∧
    (∀ (x y : Value) (a b : AttrMap),
        format_edge_yarspg_rdf (x, y, a) = format_edge_yarspg_rdf (x, y, b)) ∧
    to_yarspg_rdf g1 = to_yarspg_rdf g2 := by
  refine ⟨fun i a b => rfl, fun x y a b => rfl, ?_⟩
  rw [to_yarspg_rdf, to_yarspg_rdf,
    map_rdf_node_topology g1.nodes g2.nodes hn, map_rdf_edge_topology g1.edges g2.edges he]

/-- Claim C4 witness: two concrete graphs with equal topology and different
attributes render identically in RDF mode. -/
theorem C4_rdf_invariance_witness :
    (List.map Prod.fst (Graph.mk [(Value.int 1, [("name", Value.str "A")])]
        [(Value.int 1, Value.int 1, [("label", Value.str "x")])]).nodes =
      List.map Prod.fst (Graph.mk [(Value.int 1, [])]
        [(Value.int 1, Value.int 1, [])]).nodes) ∧
    to_yarspg_rdf (Graph.mk [(Value.int 1, [("name", Value.str "A")])]
        [(Value.int 1, Value.int 1, [("label", Value.str "x")])]) =
      to_yarspg_rdf (Graph.mk [(Value.int 1, [])] [(Value.int 1, Value.int 1, [])]) :=
  ⟨by decide,
   (C4_rdf_invariance
      (Graph.mk [(Value.int 1, [("name", Value.str "A")])]
        [(Value.int 1, Value.int 1, [("label", Value.str "x")])])
      (Graph.mk [(Value.int 1, [])] [(Value.int 1, Value.int 1, [])])
      (by decide) (by decide)).2.2⟩

/-- Claim C7: any format name outside the supported set is rejected with a
lookup error naming the format, with no fallback rendering. -/
theorem C7_unknown_format_error (other : String → Graph → String) (g : Graph)
    (ft : String) (h : ft ∉ supportedFormats) :
    to_format other g ft = Except.error ("KeyError: " ++ ft) := by
  simp only [supportedFormats, List.mem_cons, List.not_mem_nil, or_false, not_or] at h
  obtain ⟨h1, h2, h3, h4, h5, h6, h7, h8, h9, h10⟩ := h
  have hfind : List.find? (fun p => p.1 == ft) (format_methods other g) = none := by
    rw [List.find?_eq_none]
    intro p hp
    simp only [format_methods, List.mem_cons, List.not_mem_nil, or_false] at hp
    rcases hp with hp | hp | hp | hp | hp | hp | hp | hp | hp | hp <;>
      (subst hp; simp only [beq_iff_eq]; intro hh)
    · exact h1 hh.symm
    · exact h2 hh.symm
    · exact h3 hh.symm
    · exact h4 hh.symm
    · exact h5 hh.symm
    · exact h6 hh.symm
    · exact h7 hh.symm
    · exact h8 hh.symm
    · exact h9 hh.symm
    · exact h10 hh.symm
  rw [to_format, hfind]

/-- Claim C7 witness at the concrete unknown format name. -/
theorem C7_unknown_format_error_witness :
    "unknown" ∉ supportedFormats ∧
    to_format (fun _ _ => "") (Graph.mk [] []) "unknown" =
      Except.error ("KeyError: " ++ "unknown") :=
  ⟨by decide, C7_unknown_format_error (fun _ _ => "") (Graph.mk [] []) "unknown" (by decide)⟩

/-- Claim C8: the empty graph renders without failure: yarspg gives the
empty string, yarspg-rdf gives the header-only document. -/
theorem C8_empty_graph (other : String → Graph → String) :
    to_format other (Graph.mk [] []) "yarspg" = Except.ok "" ∧
    to_format other (Graph.mk [] []) "yarspg-rdf" = Except.ok "# Nodes\n\n# Edges\n" :=
  ⟨rfl, rfl⟩

/-- Claim C9: over the closed variant of string, integer and boolean
attribute values, string coercion is total, so yarspg and yarspg-rdf
rendering always succeeds on every graph. -/
theorem C9_rendering_total (other : String → Graph → String) (g : Graph) :
    (∃ s, to_format other g "yarspg" = Except.ok s) ∧
    (∃ s, to_format other g "yarspg-rdf" = Except.ok s) :=
  ⟨⟨to_yarspg g, rfl⟩, ⟨to_yarspg_rdf g, rfl⟩⟩

/-- Claim C8 witness at a concrete collaborator. -/
theorem C8_empty_graph_witness :
    to_format (fun _ _ => "") (Graph.mk [] []) "yarspg" = Except.ok "" ∧
    to_format (fun _ _ => "") (Graph.mk [] []) "yarspg-rdf" =
      Except.ok "# Nodes\n\n# Edges\n" :=
  C8_empty_graph (fun _ _ => "")

/-- Claim C9 witness at a concrete collaborator and graph. -/
theorem C9_rendering_total_witness :
    (∃ s, to_format (fun _ _ => "")
      (Graph.mk [(Value.bool true, [("ok", Value.bool false)])] []) "yarspg" =
        Except.ok s) ∧
    (∃ s, to_format (fun _ _ => "")
      (Graph.mk [(Value.bool true, [("ok", Value.bool false)])] []) "yarspg-rdf" =
        Except.ok s) :=
  C9_rendering_total (fun _ _ => "")
    (Graph.mk [(Value.bool true, [("ok", Value.bool false)])] [])

/-- String concatenation is associative. -/
theorem strAppend_assoc (a b c : String) : (a ++ b) ++ c = a ++ (b ++ c) := by
  obtain ⟨la⟩ := a
  obtain ⟨lb⟩ := b
  obtain ⟨lc⟩ := c
  show String.mk ((la ++ lb) ++ lc) = String.mk (la ++ (lb ++ lc))
  rw [List.append_assoc]

/-- Rebuilding a string from its characters is the identity. -/
theorem strMk_data (s : String) : String.mk s.data = s := rfl

/-- A newline-free character list splits into the single piece itself. -/
theorem splitNlChars_no_nl : ∀ (a : List Char), '\n' ∉ a → splitNlChars a = [a]
  | [], _ => rfl
  | c :: cs, h => by
    simp only [List.mem_cons, not_or] at h
    have hc : ¬(c = '\n') := fun hh => h.1 hh.symm
    have ih := splitNlChars_no_nl cs h.2
    simp [splitNlChars, hc, ih]

/-- Splitting past a newline-free head piece peels it off whole. -/
theorem splitNlChars_append_nl : ∀ (a : List Char), '\n' ∉ a → ∀ (rest : List Char),
    splitNlChars (a ++ '\n' :: rest) = a :: splitNlChars rest
  | [], _, rest => by simp [splitNlChars]
  | c :: cs, h, rest => by
    simp only [List.mem_cons, not_or] at h
    have hc : ¬(c = '\n') := fun hh => h.1 hh.symm
    have ih := splitNlChars_append_nl cs h.2 rest
    simp [splitNlChars, hc, ih]

/-- Joining non-empty, newline-free pieces with newline and splitting again
recovers the pieces, with any further newline-led context split after. -/
theorem splitNlChars_pyJoin_append : ∀ (xs : List String), xs ≠ [] →
    (∀ x ∈ xs, '\n' ∉ x.data) → ∀ (rest : List Char),
    splitNlChars ((pyJoin "\n" xs).data ++ '\n' :: rest) =
      List.map String.data xs ++ splitNlChars rest
  | [], hne, _, _ => absurd rfl hne
  | [x], _, h, rest => by
    have hx : '\n' ∉ x.data := h x (List.mem_singleton.mpr rfl)
    simp [pyJoin, splitNlChars_append_nl x.data hx rest]
  | x :: y :: ys, _, h, rest => by
    have hx : '\n' ∉ x.data := h x (List.mem_cons_self x _)
    have ih := splitNlChars_pyJoin_append (y :: ys) (List.cons_ne_nil y ys)
      (fun z hz => h z (List.mem_cons_of_mem x hz)) rest
    have hdata : (pyJoin "\n" (x :: y :: ys)).data =
        x.data ++ '\n' :: (pyJoin "\n" (y :: ys)).data := by
      show ((x ++ "\n") ++ pyJoin "\n" (y :: ys)).data = _
      rw [strData_append, strData_append]
      simp [List.append_assoc]
    rw [hdata, List.append_assoc, List.cons_append,
      splitNlChars_append_nl x.data hx, ih]
    simp

/-- Joining non-empty, newline-free pieces with newline and splitting again
recovers exactly the pieces. -/
theorem splitNlChars_pyJoin : ∀ (xs : List String), xs ≠ [] →
    (∀ x ∈ xs, '\n' ∉ x.data) →
    splitNlChars (pyJoin "\n" xs).data = List.map String.data xs
  | [], hne, _ => absurd rfl hne
  | [x], _, h => by
    have hx : '\n' ∉ x.data := h x (List.mem_singleton.mpr rfl)
    simp [pyJoin, splitNlChars_no_nl x.data hx]
  | x :: y :: ys, _, h => by
    have hx : '\n' ∉ x.data := h x (List.mem_cons_self x _)
    have ih := splitNlChars_pyJoin (y :: ys) (List.cons_ne_nil y ys)
      (fun z hz => h z (List.mem_cons_of_mem x hz))
    have hdata : (pyJoin "\n" (x :: y :: ys)).data =
        x.data ++ '\n' :: (pyJoin "\n" (y :: ys)).data := by
      show ((x ++ "\n") ++ pyJoin "\n" (y :: ys)).data = _
      rw [strData_append, strData_append]
      simp [List.append_assoc]
    rw [hdata, splitNlChars_append_nl x.data hx, ih]
    simp

/-- Mapping characters back to strings after mapping strings to characters
is the identity. -/
theorem map_mk_map_data (l : List String) :
    List.map String.mk (List.map String.data l) = l := by
  induction l with
  | nil => rfl
  | cons x xs ih => simp [ih, strMk_data]

/-- Claim C5 counterexample: the claim fails on the empty graph, where the
yarspg output is the empty string and splitting it yields one empty line,
not zero lines. -/
theorem C5_counterexample :
    (splitNl (to_yarspg (Graph.mk [] []))).length ≠
      (Graph.mk [] []).nodes.length + (Graph.mk [] []).edges.length := by
  decide

/-- Claim C5 (amended): for every graph with at least one node or edge
whose rendered terms contain no newline character, the yarspg output split
on newline is exactly the node terms in insertion order followed by the
edge terms in insertion order — hence `|nodes| + |edges|` lines with all
node lines before all edge lines and no section markers. -/
theorem C5_yarspg_line_shape (g : Graph)
    (hterm : ∀ t ∈ List.map format_node_yarspg g.nodes ++
      List.map format_edge_yarspg g.edges, '\n' ∉ t.data)
    (hne : g.nodes ≠ [] ∨ g.edges ≠ []) :
    splitNl (to_yarspg g) =
      List.map format_node_yarspg g.nodes ++ List.map format_edge_yarspg g.edges ∧
    (splitNl (to_yarspg g)).length = g.nodes.length + g.edges.length := by
  have hxs : List.map format_node_yarspg g.nodes ++
      List.map format_edge_yarspg g.edges ≠ [] := by
    rcases hne with h | h
    · intro hc
      exact h (List.map_eq_nil_iff.mp (List.append_eq_nil.mp hc).1)
    · intro hc
      exact h (List.map_eq_nil_iff.mp (List.append_eq_nil.mp hc).2)
  have heq : splitNl (to_yarspg g) =
      List.map format_node_yarspg g.nodes ++ List.map format_edge_yarspg g.edges := by
    rw [splitNl, to_yarspg, splitNlChars_pyJoin _ hxs hterm]
    exact map_mk_map_data _
  refine ⟨heq, ?_⟩
  rw [heq]
  simp

/-- Claim C5 witness at a concrete one-node graph. -/
theorem C5_yarspg_line_shape_witness :
    (∀ t ∈ List.map format_node_yarspg (Graph.mk [(Value.int 3, [])] []).nodes ++
        List.map format_edge_yarspg (Graph.mk [(Value.int 3, [])] []).edges,
      '\n' ∉ t.data) ∧
    ((Graph.mk [(Value.int 3, [])] []).nodes ≠ [] ∨
      (Graph.mk [(Value.int 3, [])] []).edges ≠ []) ∧
    (splitNl (to_yarspg (Graph.mk [(Value.int 3, [])] [])) =
        List.map format_node_yarspg (Graph.mk [(Value.int 3, [])] []).nodes ++
        List.map format_edge_yarspg (Graph.mk [(Value.int 3, [])] []).edges ∧
      (splitNl (to_yarspg (Graph.mk [(Value.int 3, [])] []))).length =
        (Graph.mk [(Value.int 3, [])] []).nodes.length +
        (Graph.mk [(Value.int 3, [])] []).edges.length) :=
  ⟨by decide, by decide,
   C5_yarspg_line_shape (Graph.mk [(Value.int 3, [])] []) (by decide) (by decide)⟩

/-- A string beginning with an opening parenthesis differs from any string
whose first character is the hash sign. -/
theorem paren_append_ne (s t : String) (ht : t.data.head? = some '#') :
    "(" ++ s ≠ t := by
  intro h
  have hd := congrArg String.data h
  rw [strData_append, show ("(" : String).data = ['('] from rfl,
    List.singleton_append] at hd
  have hh := congrArg List.head? hd
  rw [ht] at hh
  exact absurd (Option.some.inj hh) (by decide)

/-- Every RDF node term starts with an opening parenthesis. -/
theorem format_node_rdf_paren (n : Value × AttrMap) :
    format_node_yarspg_rdf n =
      "(" ++ (pyStr n.1 ++ (" \x7b\"" ++ (getLabel rdfNodeAttrs ++
        ("\"\x7d[" ++ (prop_list rdfNodeAttrs ++ "])"))))) := by
  simp only [format_node_yarspg_rdf, strAppend_assoc]

/-- Every RDF edge term starts with an opening parenthesis. -/
theorem format_edge_rdf_paren (e : Value × Value × AttrMap) :
    format_edge_yarspg_rdf e =
      "(" ++ (pyStr e.1 ++ (")-(\x7b\"" ++ (getLabel rdfEdgeAttrs ++
        ("\"\x7d[" ++ (prop_list rdfEdgeAttrs ++ ("])->(" ++ (pyStr e.2.1 ++ ")"))))))) := by
  simp only [format_edge_yarspg_rdf, strAppend_assoc]

/-- No RDF node term equals either section header. -/
theorem rdf_node_ne_headers (n : Value × AttrMap) :
    format_node_yarspg_rdf n ≠ "# Nodes" ∧ format_node_yarspg_rdf n ≠ "# Edges" := by
  rw [format_node_rdf_paren n]
  exact ⟨paren_append_ne _ _ rfl, paren_append_ne _ _ rfl⟩

/-- No RDF edge term equals either section header. -/
theorem rdf_edge_ne_headers (e : Value × Value × AttrMap) :
    format_edge_yarspg_rdf e ≠ "# Nodes" ∧ format_edge_yarspg_rdf e ≠ "# Edges" := by
  rw [format_edge_rdf_paren e]
  exact ⟨paren_append_ne _ _ rfl, paren_append_ne _ _ rfl⟩

/-- Neither section header occurs among the node-section lines. -/
theorem headers_not_mem_nodeLines (g : Graph) :
    "# Nodes" ∉ nodeLines g ∧ "# Edges" ∉ nodeLines g := by
  constructor <;> (intro hmem; rw [nodeLines] at hmem)
  · by_cases hgn : g.nodes = []
    · rw [if_pos hgn] at hmem
      exact absurd (List.mem_singleton.mp hmem) (by decide)
    · rw [if_neg hgn] at hmem
      obtain ⟨n, _, hn2⟩ := List.mem_map.mp hmem
      exact (rdf_node_ne_headers n).1 hn2
  · by_cases hgn : g.nodes = []
    · rw [if_pos hgn] at hmem
      exact absurd (List.mem_singleton.mp hmem) (by decide)
    · rw [if_neg hgn] at hmem
      obtain ⟨n, _, hn2⟩ := List.mem_map.mp hmem
      exact (rdf_node_ne_headers n).2 hn2

/-- Neither section header occurs among the edge-section lines. -/
theorem headers_not_mem_edgeLines (g : Graph) :
    "# Nodes" ∉ edgeLines g ∧ "# Edges" ∉ edgeLines g := by
  constructor <;> (intro hmem; rw [edgeLines] at hmem)
  · by_cases hge : g.edges = []
    · rw [if_pos hge] at hmem
      exact absurd (List.mem_singleton.mp hmem) (by decide)
    · rw [if_neg hge] at hmem
      obtain ⟨e, _, he2⟩ := List.mem_map.mp hmem
      exact (rdf_edge_ne_headers e).1 he2
  · by_cases hge : g.edges = []
    · rw [if_pos hge] at hmem
      exact absurd (List.mem_singleton.mp hmem) (by decide)
    · rw [if_neg hge] at hmem
      obtain ⟨e, _, he2⟩ := List.mem_map.mp hmem
      exact (rdf_edge_ne_headers e).2 he2

/-- The underlying characters of a yarspg-rdf document, with its two
embedded header lines made explicit. -/
theorem to_yarspg_rdf_data (g : Graph) :
    (to_yarspg_rdf g).data =
      ("# Nodes" : String).data ++ '\n' ::
        ((pyJoin "\n" (List.map format_node_yarspg_rdf g.nodes)).data ++ '\n' ::
          (("# Edges" : String).data ++ '\n' ::
            (pyJoin "\n" (List.map format_edge_yarspg_rdf g.edges)).data)) := by
  rw [to_yarspg_rdf, strData_append, strData_append, strData_append,
    show ("# Nodes\n" : String).data = ("# Nodes" : String).data ++ ['\n'] from rfl,
    show ("\n# Edges\n" : String).data =
      '\n' :: (("# Edges" : String).data ++ ['\n']) from rfl]
  simp [List.append_assoc]

/-- Splitting the node section of a yarspg-rdf document, followed by a
newline and further content. -/
theorem splitNlChars_nodeSection (g : Graph)
    (hn : ∀ n ∈ g.nodes, '\n' ∉ (format_node_yarspg_rdf n).data) (rest : List Char) :
    splitNlChars ((pyJoin "\n" (List.map format_node_yarspg_rdf g.nodes)).data ++
        '\n' :: rest) =
      List.map String.data (nodeLines g) ++ splitNlChars rest := by
  by_cases hgn : g.nodes = []
  · rw [hgn]
    simp [nodeLines, hgn, pyJoin, splitNlChars]
  · rw [nodeLines, if_neg hgn]
    refine splitNlChars_pyJoin_append _ (by simpa using hgn) ?_ rest
    intro x hx
    obtain ⟨n, hn2, rfl⟩ := List.mem_map.mp hx
    exact hn n hn2

/-- Splitting the edge section of a yarspg-rdf document. -/
theorem splitNlChars_edgeSection (g : Graph)
    (he : ∀ e ∈ g.edges, '\n' ∉ (format_edge_yarspg_rdf e).data) :
    splitNlChars (pyJoin "\n" (List.map format_edge_yarspg_rdf g.edges)).data =
      List.map String.data (edgeLines g) := by
  by_cases hge : g.edges = []
  · rw [hge]
    simp [edgeLines, hge, pyJoin, splitNlChars]
  · rw [edgeLines, if_neg hge]
    refine splitNlChars_pyJoin _ (by simpa using hge) ?_
    intro x hx
    obtain ⟨e, he2, rfl⟩ := List.mem_map.mp hx
    exact he e he2

/-- Claim C6 counterexample: a node identifier containing a newline and the
text of the header makes the split output contain the `# Nodes` line twice. -/
theorem C6_counterexample :
    List.count "# Nodes"
      (splitNl (to_yarspg_rdf
        (Graph.mk [(Value.str "x\n# Nodes\ny", [])] []))) ≠ 1 := by
  decide

/-- Claim C6 (amended): for every graph whose rendered RDF terms contain no
newline character, the yarspg-rdf output split on newline is the `# Nodes`
header, then the node-section lines, then the `# Edges` header, then the
edge-section lines; each header occurs exactly once, in that order. -/
theorem C6_rdf_sections (g : Graph)
    (hn : ∀ n ∈ g.nodes, '\n' ∉ (format_node_yarspg_rdf n).data)
    (he : ∀ e ∈ g.edges, '\n' ∉ (format_edge_yarspg_rdf e).data) :
    splitNl (to_yarspg_rdf g) =
      "# Nodes" :: (nodeLines g ++ "# Edges" :: edgeLines g) ∧
    List.count "# Nodes" (splitNl (to_yarspg_rdf g)) = 1 ∧
    List.count "# Edges" (splitNl (to_yarspg_rdf g)) = 1 := by
  have hsplit : splitNlChars (to_yarspg_rdf g).data =
      ("# Nodes" : String).data ::
        (List.map String.data (nodeLines g) ++
          ("# Edges" : String).data :: List.map String.data (edgeLines g)) := by
    rw [to_yarspg_rdf_data g,
      splitNlChars_append_nl _ (by decide),
      splitNlChars_nodeSection g hn,
      splitNlChars_append_nl _ (by decide),
      splitNlChars_edgeSection g he]
  have hlines : splitNl (to_yarspg_rdf g) =
      "# Nodes" :: (nodeLines g ++ "# Edges" :: edgeLines g) := by
    rw [splitNl, hsplit, List.map_cons, List.map_append, List.map_cons,
      map_mk_map_data, map_mk_map_data, strMk_data, strMk_data]
  refine ⟨hlines, ?_, ?_⟩
  · rw [hlines, List.count_cons_self, List.count_append,
      List.count_eq_zero.mpr (headers_not_mem_nodeLines g).1,
      List.count_cons_of_ne (by decide),
      List.count_eq_zero.mpr (headers_not_mem_edgeLines g).1]
  · rw [hlines, List.count_cons_of_ne (by decide), List.count_append,
      List.count_eq_zero.mpr (headers_not_mem_nodeLines g).2,
      List.count_cons_self,
      List.count_eq_zero.mpr (headers_not_mem_edgeLines g).2]

/-- Claim C6 witness at a concrete one-node, one-edge graph. -/
theorem C6_rdf_sections_witness :
    (∀ n ∈ (Graph.mk [(Value.int 1, [])] [(Value.int 1, Value.int 2, [])]).nodes,
      '\n' ∉ (format_node_yarspg_rdf n).data) ∧
    (∀ e ∈ (Graph.mk [(Value.int 1, [])] [(Value.int 1, Value.int 2, [])]).edges,
      '\n' ∉ (format_edge_yarspg_rdf e).data) ∧
    (splitNl (to_yarspg_rdf (Graph.mk [(Value.int 1, [])]
        [(Value.int 1, Value.int 2, [])])) =
      "# Nodes" :: (nodeLines (Graph.mk [(Value.int 1, [])]
        [(Value.int 1, Value.int 2, [])]) ++
        "# Edges" :: edgeLines (Graph.mk [(Value.int 1, [])]
          [(Value.int 1, Value.int 2, [])])) ∧
    List.count "# Nodes" (splitNl (to_yarspg_rdf (Graph.mk [(Value.int 1, [])]
        [(Value.int 1, Value.int 2, [])]))) = 1 ∧
    List.count "# Edges" (splitNl (to_yarspg_rdf (Graph.mk [(Value.int 1, [])]
        [(Value.int 1, Value.int 2, [])]))) = 1) :=
  ⟨by decide, by decide,
   C6_rdf_sections (Graph.mk [(Value.int 1, [])] [(Value.int 1, Value.int 2, [])])
     (by decide) (by decide)⟩

/-- The characters of a newline-join of two or more pieces. -/
theorem pyJoin_cons_data (x y : String) (ys : List String) :
    (pyJoin "\n" (x :: y :: ys)).data =
      x.data ++ '\n' :: (pyJoin "\n" (y :: ys)).data := by
  show ((x ++ "\n") ++ pyJoin "\n" (y :: ys)).data = _
  rw [strData_append, strData_append]
  simp [List.append_assoc]

/-- Every non-RDF node term ends in a closing parenthesis. -/
theorem node_term_last (n : Value × AttrMap) :
    (format_node_yarspg n).data.getLast? = some ')' := by
  rw [format_node_yarspg, strData_append,
    show ("])" : String).data = [']', ')'] from rfl, List.getLast?_append_cons]
  decide

/-- Every non-RDF edge term ends in a closing parenthesis. -/
theorem edge_term_last (e : Value × Value × AttrMap) :
    (format_edge_yarspg e).data.getLast? = some ')' := by
  rw [format_edge_yarspg, strData_append,
    show (")" : String).data = [')'] from rfl, List.getLast?_concat]

/-- A newline-join of pieces that all end in a closing parenthesis itself
ends in a closing parenthesis — in particular with no trailing newline. -/
theorem pyJoin_last : ∀ (xs : List String), xs ≠ [] →
    (∀ x ∈ xs, x.data.getLast? = some ')') →
    (pyJoin "\n" xs).data.getLast? = some ')'
  | [], hne, _ => absurd rfl hne
  | [x], _, h => by simpa [pyJoin] using h x (List.mem_singleton.mpr rfl)
  | x :: y :: ys, _, h => by
    have ih := pyJoin_last (y :: ys) (List.cons_ne_nil y ys)
      (fun z hz => h z (List.mem_cons_of_mem x hz))
    have hne2 : (pyJoin "\n" (y :: ys)).data ≠ [] := by
      intro hc
      rw [hc] at ih
      exact absurd ih (by decide)
    rw [pyJoin_cons_data,
      show (x.data ++ '\n' :: (pyJoin "\n" (y :: ys)).data) =
        (x.data ++ ['\n']) ++ (pyJoin "\n" (y :: ys)).data by
          simp [List.append_assoc],
      List.getLast?_append_of_ne_nil _ hne2]
    exact ih

/-- Claim C10: with no edges, the yarspg output is exactly the node terms
newline-joined; with no nodes, exactly the edge terms newline-joined; in
either non-empty case the output ends in a closing parenthesis, so there is
no trailing newline and no separator for the absent section. -/
theorem C10_single_section (g : Graph) :
    (g.edges = [] →
      to_yarspg g = pyJoin "\n" (List.map format_node_yarspg g.nodes)) ∧
    (g.nodes = [] →
      to_yarspg g = pyJoin "\n" (List.map format_edge_yarspg g.edges)) ∧
    (g.edges = [] → g.nodes ≠ [] →
      (to_yarspg g).data.getLast? = some ')') ∧
    (g.nodes = [] → g.edges ≠ [] →
      (to_yarspg g).data.getLast? = some ')') := by
  refine ⟨?_, ?_, ?_, ?_⟩
  · intro h
    rw [to_yarspg, h]
    simp
  · intro h
    rw [to_yarspg, h]
    simp
  · intro h hn
    rw [to_yarspg, h]
    simp only [List.map_nil, List.append_nil]
    refine pyJoin_last _ (by simpa using hn) ?_
    intro x hx
    obtain ⟨n, _, rfl⟩ := List.mem_map.mp hx
    exact node_term_last n
  · intro h hedge
    rw [to_yarspg, h]
    simp only [List.map_nil, List.nil_append]
    refine pyJoin_last _ (by simpa using hedge) ?_
    intro x hx
    obtain ⟨e, _, rfl⟩ := List.mem_map.mp hx
    exact edge_term_last e

/-- Claim C10 witness at a concrete two-node, edgeless graph. -/
theorem C10_single_section_witness :
    ((Graph.mk [(Value.int 1, []), (Value.int 2, [])] []).edges = [] →
      to_yarspg (Graph.mk [(Value.int 1, []), (Value.int 2, [])] []) =
        pyJoin "\n" (List.map format_node_yarspg
          (Graph.mk [(Value.int 1, []), (Value.int 2, [])] []).nodes)) ∧
    ((Graph.mk [(Value.int 1, []), (Value.int 2, [])] []).nodes = [] →
      to_yarspg (Graph.mk [(Value.int 1, []), (Value.int 2, [])] []) =
        pyJoin "\n" (List.map format_edge_yarspg
          (Graph.mk [(Value.int 1, []), (Value.int 2, [])] []).edges)) ∧
    ((Graph.mk [(Value.int 1, []), (Value.int 2, [])] []).edges = [] →
      (Graph.mk [(Value.int 1, []), (Value.int 2, [])] []).nodes ≠ [] →
      (to_yarspg (Graph.mk [(Value.int 1, []), (Value.int 2, [])] [])).data.getLast? =
        some ')') ∧
    ((Graph.mk [(Value.int 1, []), (Value.int 2, [])] []).nodes = [] →
      (Graph.mk [(Value.int 1, []), (Value.int 2, [])] []).edges ≠ [] →
      (to_yarspg (Graph.mk [(Value.int 1, []), (Value.int 2, [])] [])).data.getLast? =
        some ')') :=
  C10_single_section (Graph.mk [(Value.int 1, []), (Value.int 2, [])] [])

end Knows
